import Mathlib

/-!
Verification development for the LNS primal heuristic (heur_lns.c).

The C code is shallowly embedded: SCIP_Real becomes ℚ, SCIP_Longint and int
counters become Int, loops become structural recursion, and the random number
generator as well as the neighborhood callbacks are passed in as oracle
arguments (the value the generator or callback would produce).  Outer-solve
queries such as SCIPgetNNodes or SCIPgetUpperbound become fields of an
explicit state record.
-/

namespace HeurLns

/-- The value against which SCIPisInfinity compares (SCIP default infinity 1e20). -/
def SCIPinfinity : ℚ := 100000000000000000000

/-- SCIPisInfinity: a value counts as infinite when it reaches SCIPinfinity. -/
def isInfinity (x : ℚ) : Bool := decide (SCIPinfinity ≤ x)

/-- Truncation toward zero, the semantics of the C casts
`(SCIP_Longint)(...)` and `(int)(...)` applied to a SCIP_Real. -/
def ratTrunc (q : ℚ) : Int := if 0 ≤ q then ⌊q⌋ else ⌈q⌉

/-- `BESTSOL_WEIGHT` (macro DEFAULT_BESTSOLWEIGHT in heur_lns.c). -/
def DEFAULT_BESTSOLWEIGHT : Int := 3

/-- Macro DEFAULT_MINNODES in heur_lns.c. -/
def DEFAULT_MINNODES : Int := 10

/-- struct NH_Stats: statistics for a neighborhood. -/
structure NH_Stats where
  usednodes : Int
  lpiterations : Int
  totalgapclosed : ℚ
  nruns : Int
  nrunsbestsol : Int
  nsolsfound : Int
  nbestsolsfound : Int
  presolrounds : Int
  totalnbinfixings : Int
  totalnintfixings : Int
  totalnimplintfixings : Int
  totalncontfixings : Int
  totalnfixings : Int
  deriving DecidableEq, Repr

/-- neighborhoodStatsReset (heur_lns.c lines 307-328): field-by-field zeroing,
exactly the assignments the C body performs. -/
def neighborhoodStatsReset (stats : NH_Stats) : NH_Stats :=
  { stats with
      lpiterations := 0
      nbestsolsfound := 0
      nruns := 0
      nrunsbestsol := 0
      nsolsfound := 0
      presolrounds := 0
      totalgapclosed := 0
      totalnbinfixings := 0
      totalncontfixings := 0
      totalnimplintfixings := 0
      totalnfixings := 0
      usednodes := 0 }

/-- Observable outcome of a DECL_VARFIXINGS callback: the values it leaves in
`*nfixings` and `*success` (the callback itself is an oracle here). -/
structure VarFixingsResult where
  nfixings : Int
  success : Bool
  deriving DecidableEq, Repr

/-- neighborhoodFixVariables (heur_lns.c lines 889-924).  `varfixings = none`
models a neighborhood whose varfixings callback pointer is NULL; `some cb`
models a callback that terminates leaving `cb` in the output parameters
(the buffers start from `nfixings = 0`, `success = FALSE`).  The trailing
conditional is translated verbatim: it assigns TRUE only when `*success`
is already TRUE and the fixing count reaches the target rate. -/
def neighborhoodFixVariables (varfixings : Option VarFixingsResult)
    (targetfixingrate : ℚ) (nvars : ℕ) : VarFixingsResult :=
  let r : VarFixingsResult := varfixings.getD { nfixings := 0, success := true }
  if r.success ∧ targetfixingrate * (nvars : ℚ) ≤ (r.nfixings : ℚ) then
    { r with success := true }
  else
    r

/-- struct SolveLimits. -/
structure SolveLimits where
  nodelimit : Int
  memorylimit : ℚ
  timelimit : ℚ
  deriving DecidableEq, Repr

/-- The outer-solve quantities read by determineLimits: the parameters
limits/time and limits/memory, SCIPgetSolvingTime, SCIPgetMemUsed,
SCIPgetMemExternEstim (both in bytes), SCIPgetNNodes and SCIPheurGetNCalls. -/
structure OuterState where
  timelimitParam : ℚ
  memorylimitParam : ℚ
  solvingTime : ℚ
  memUsed : ℚ
  memExternEstim : ℚ
  nnodes : Int
  ncalls : Int
  deriving DecidableEq, Repr

/-- determineLimits (heur_lns.c lines 944-988): compute remaining time and
memory, veto the run on exhausted time/memory, compute the node budget, and
veto the run when it falls below minnodes.  `runagain` enters as passed by the
caller and is only ever set to false. -/
def determineLimits (st : OuterState) (nodesquot : ℚ)
    (nodesoffset usednodes minnodes : Int) (runagain : Bool) :
    SolveLimits × Bool :=
  let timelimit :=
    if isInfinity st.timelimitParam then st.timelimitParam
    else st.timelimitParam - st.solvingTime
  let memorylimit :=
    if isInfinity st.memorylimitParam then st.memorylimitParam
    else st.memorylimitParam - st.memUsed / 1048576 - st.memExternEstim / 1048576
  let run1 :=
    if timelimit ≤ 0 ∨ memorylimit ≤ 2 * st.memExternEstim / 1048576 then false
    else runagain
  let nodelimit :=
    ratTrunc (nodesquot * (st.nnodes : ℚ)) + nodesoffset - usednodes
      - 100 * st.ncalls
  let run2 := if nodelimit < minnodes then false else run1
  (⟨nodelimit, memorylimit, timelimit⟩, run2)

/-- The objective-cutoff part of setupSubScip (heur_lns.c lines 1064-1082):
`none` when no cutoff is installed (outer upper bound infinite), otherwise the
value passed to SCIPsetObjlimit.  `U` is SCIPgetUpperbound, `L` is
SCIPgetLowerbound, `eps` is SCIPsumepsilon. -/
def setupSubScipObjlimit (U L minimprove eps : ℚ) : Option ℚ :=
  if isInfinity U then none
  else
    let upperbound := U - eps
    let cutoff :=
      if ¬ isInfinity (-1 * L) then
        (1 - minimprove) * U + minimprove * L
      else if 0 ≤ U then (1 - minimprove) * U
      else (1 + minimprove) * U
    some (min upperbound cutoff)

/-- The scan of the for loop in epsGreedySelect (heur_lns.c lines 521-534):
`bestUpTo r n` is the index held in `*i` after the loop has processed arms
`1, …, n`, starting from arm 0, replacing only on strict improvement. -/
def bestUpTo (r : ℕ → ℚ) : ℕ → ℕ
  | 0 => 0
  | n + 1 => if r (bestUpTo r n) < r (n + 1) then n + 1 else bestUpTo r n

/-- epsGreedySelect (heur_lns.c lines 493-543).  `u` is the value drawn by
SCIPrandomGetReal(rng, 0.0, 1.0) and `randdraw` the value drawn by
SCIPrandomGetInt(rng, 0, nchoices-1); both generators are oracles here. -/
def epsGreedySelect (nchoices : ℕ) (r : ℕ → ℚ) (eps u : ℚ)
    (randdraw : ℕ) : Int :=
  if nchoices = 0 then -1
  else if u ≤ eps then (bestUpTo r (nchoices - 1) : Int)
  else (randdraw : Int)

/-- initNeighborhoodStatsRun (heur_lns.c lines 802-812): subtract the outer
solution counters (SCIPgetNBestSolsFound, SCIPgetNSolsFound at run start). -/
def initNeighborhoodStatsRun (outerNBestSolsFound outerNSolsFound : Int)
    (stats : NH_Stats) : NH_Stats :=
  { stats with
      nbestsolsfound := stats.nbestsolsfound - outerNBestSolsFound
      nsolsfound := stats.nsolsfound - outerNSolsFound }

/-- updateNeighborhoodStats (heur_lns.c lines 815-835): add the sub-SCIP
LP iterations and nodes, re-add the outer solution counters (now at run end),
bump nrunsbestsol by the weighted success indicator and nruns by one. -/
def updateNeighborhoodStats (outerNBestSolsFound outerNSolsFound : Int)
    (subLpIterations subNBestSolsFound subNSolsFound subNNodes : Int)
    (stats : NH_Stats) : NH_Stats :=
  { stats with
      lpiterations := stats.lpiterations + subLpIterations
      nbestsolsfound := stats.nbestsolsfound + outerNBestSolsFound
      nsolsfound := stats.nsolsfound + outerNSolsFound
      nrunsbestsol := stats.nrunsbestsol +
        (if 0 < subNBestSolsFound then DEFAULT_BESTSOLWEIGHT
         else if 0 < subNSolsFound then 1 else 0)
      usednodes := stats.usednodes + subNNodes
      nruns := stats.nruns + 1 }

/-- struct expThree, with the arrays as lists (rng kept outside as oracle). -/
structure ExpThree where
  nactions : ℕ
  ndraws : ℕ
  probabilities : List ℚ
  cumulativegain : List ℚ
  deriving DecidableEq, Repr

/-- expThreeUpdate (heur_lns.c lines 681-707): the local learning-rate
computations (eta, factor) have no effect on the state, and the only state
write the body performs is `cumulativegain[i] += gain`. -/
def expThreeUpdate (exp3 : ExpThree) (gain : ℚ) (i : ℕ) : ExpThree :=
  { exp3 with
      cumulativegain :=
        exp3.cumulativegain.set i (exp3.cumulativegain.getD i 0 + gain) }

/-- SCIPswapPointers applied to two cells of the problem variable array:
swap positions i and j of the list. -/
def listSwap (l : List ℕ) (i j : ℕ) : List ℕ :=
  (l.set i (l.getD j 0)).set j (l.getD i 0)

/-- The perturbation loop of varFixingsMutation (heur_lns.c lines 1440-1453):
process `k` more iterations starting at index `i`, swapping `vars[i]` with
`vars[rand i]` when `rand i > i` (the value SCIPrandomGetInt(rng, i,
nbinintvars-1) produced), and recording `(vars[i], solval vars[i])` into the
fixing buffers.  Returns the variable array after the loop together with the
accumulated (varbuf, valbuf) entries. -/
def perturbFrom (rand : ℕ → ℕ) (solval : ℕ → ℚ) :
    ℕ → ℕ → List ℕ → List (ℕ × ℚ) → List ℕ × List (ℕ × ℚ)
  | _, 0, vars, buf => (vars, buf.reverse)
  | i, k + 1, vars, buf =>
      let r := rand i
      let vars2 := if i < r then listSwap vars i r else vars
      let x := vars2.getD i 0
      perturbFrom rand solval (i + 1) k vars2 ((x, solval x) :: buf)

/-- varFixingsMutation (heur_lns.c lines 1395-1461).  Variables are identified
by naturals; `vars` is the outer problem's variable array as returned by
SCIPgetVarsData (binaries first, then general integers), `solval` the
incumbent solution value of a variable, `rand` the oracle for the random
integers drawn in the loop.  Returns the outer variable array as left behind
by the callback, the fixing buffer, and the value stored into `*nfixings`.
The early-return paths leave `*nfixings` at the 0 installed by
neighborhoodFixVariables. -/
def varFixingsMutation (vars : List ℕ) (nbinvars nintvars nvars : ℕ)
    (hasIncumbent : Bool) (solval : ℕ → ℚ) (targetfixingrate : ℚ)
    (rand : ℕ → ℕ) : List ℕ × List (ℕ × ℚ) × Int :=
  let nbinintvars := nbinvars + nintvars
  if nbinintvars = 0 then (vars, [], 0)
  else if hasIncumbent = false then (vars, [], 0)
  else
    let ntargetfixings : Int := ratTrunc (targetfixingrate * (nvars : ℚ)) + 1
    if (nbinintvars : Int) ≤ ntargetfixings then (vars, [], 0)
    else
      let res := perturbFrom rand solval 0 ntargetfixings.toNat vars []
      (res.1, res.2, ntargetfixings)

/-- SCIP_RESULT values heurExecLns can store into `*result`. -/
inductive HeurResult
  | delayed
  | didnotrun
  | didnotfind
  | foundsol
  deriving DecidableEq, Repr

/-- The `*result` value produced by one invocation of heurExecLns
(heur_lns.c lines 1092-1218).  The budget check is the embedded
determineLimits (entered with run = TRUE), the fixing step the embedded
neighborhoodFixVariables for the selected neighborhood; `acceptedDuringRun`
records whether any solution was accepted into the outer solve by the event
handler during the sub-solve (a side effect the C body never consults when
storing `*result`). -/
def heurExecLns (st : OuterState) (nodesquot : ℚ)
    (nodesoffset usednodes minnodes : Int)
    (varfixings : Option VarFixingsResult) (targetfixingrate : ℚ)
    (nvars : ℕ) (acceptedDuringRun : Bool) : HeurResult :=
  let run := (determineLimits st nodesquot nodesoffset usednodes minnodes true).2
  if run = false then HeurResult.delayed
  else
    let fixres := neighborhoodFixVariables varfixings targetfixingrate nvars
    if fixres.success = false then HeurResult.didnotrun
    else HeurResult.didnotfind

/-!
Theorems.
-/

/-- Claim C1, evaluated at a failing input.  The claim states that
neighborhoodFixVariables reports success only when the fixing count reaches
`targetfixingrate * nvars`, declining otherwise.  The code disagrees: with a
callback that succeeds with 0 fixings, a target rate of 1/4 and 4 problem
variables (threshold 1), the function still reports success, because its final
conditional only ever assigns TRUE. -/
theorem neighborhoodFixVariables_accepts_below_threshold :
    (HeurLns.neighborhoodFixVariables (some ⟨0, true⟩) (1 / 4) 4).success = true
      ∧ ¬ ((1 : ℚ) / 4 * ((4 : ℕ) : ℚ) ≤ ((0 : Int) : ℚ)) := by
  constructor
  · simp only [HeurLns.neighborhoodFixVariables, Option.getD_some]
    split <;> rfl
  · norm_num

/-- Claim C10: a neighborhood whose varfixings callback is NULL is
unconditionally reported successful with an empty fixing set, for every
target fixing rate and problem size. -/
theorem neighborhoodFixVariables_no_callback (targetfixingrate : ℚ)
    (nvars : ℕ) :
    HeurLns.neighborhoodFixVariables none targetfixingrate nvars
      = ⟨0, true⟩ := by
  simp only [HeurLns.neighborhoodFixVariables, Option.getD_none]
  split <;> rfl

/-- Claim C6, evaluated at a failing input.  The claim states that after
neighborhoodStatsReset every counter is zero regardless of the prior record.
The code disagrees: totalnintfixings is missing from the reset list, so a
record entering with totalnintfixings = 5 leaves with 5, not 0. -/
theorem neighborhoodStatsReset_misses_totalnint :
    (HeurLns.neighborhoodStatsReset
        ⟨5, 5, 5, 5, 5, 5, 5, 5, 5, 5, 5, 5, 5⟩).totalnintfixings = 5
      ∧ ¬ (HeurLns.neighborhoodStatsReset
        ⟨5, 5, 5, 5, 5, 5, 5, 5, 5, 5, 5, 5, 5⟩).totalnintfixings = 0 := by
  exact ⟨rfl, by decide⟩

/-- Claim C5: composing the pre-run initialization with the post-run update
adds the sub-SCIP LP iterations and nodes, increments nruns by one, increments
nrunsbestsol by 3 (BESTSOL_WEIGHT) / 1 / 0 according to whether the sub-SCIP
found a new best solution, any solution, or none, and changes nsolsfound and
nbestsolsfound by exactly the outer deltas over the run. -/
theorem updateNeighborhoodStats_spec (stats : HeurLns.NH_Stats)
    (beforeNBest beforeNSols afterNBest afterNSols : Int)
    (subLp subNBest subNSols subNodes : Int) :
    (HeurLns.updateNeighborhoodStats afterNBest afterNSols subLp subNBest
          subNSols subNodes
          (HeurLns.initNeighborhoodStatsRun beforeNBest beforeNSols
            stats)).lpiterations = stats.lpiterations + subLp
      ∧ (HeurLns.updateNeighborhoodStats afterNBest afterNSols subLp subNBest
          subNSols subNodes
          (HeurLns.initNeighborhoodStatsRun beforeNBest beforeNSols
            stats)).usednodes = stats.usednodes + subNodes
      ∧ (HeurLns.updateNeighborhoodStats afterNBest afterNSols subLp subNBest
          subNSols subNodes
          (HeurLns.initNeighborhoodStatsRun beforeNBest beforeNSols
            stats)).nruns = stats.nruns + 1
      ∧ (HeurLns.updateNeighborhoodStats afterNBest afterNSols subLp subNBest
          subNSols subNodes
          (HeurLns.initNeighborhoodStatsRun beforeNBest beforeNSols
            stats)).nrunsbestsol = stats.nrunsbestsol +
            (if 0 < subNBest then 3 else if 0 < subNSols then 1 else 0)
      ∧ (HeurLns.updateNeighborhoodStats afterNBest afterNSols subLp subNBest
          subNSols subNodes
          (HeurLns.initNeighborhoodStatsRun beforeNBest beforeNSols
            stats)).nsolsfound = stats.nsolsfound + (afterNSols - beforeNSols)
      ∧ (HeurLns.updateNeighborhoodStats afterNBest afterNSols subLp subNBest
          subNSols subNodes
          (HeurLns.initNeighborhoodStatsRun beforeNBest beforeNSols
            stats)).nbestsolsfound
          = stats.nbestsolsfound + (afterNBest - beforeNBest) := by
  refine ⟨rfl, rfl, rfl, ?_, by
    simp [HeurLns.updateNeighborhoodStats, HeurLns.initNeighborhoodStatsRun]
    ring, by
    simp [HeurLns.updateNeighborhoodStats, HeurLns.initNeighborhoodStatsRun]
    ring⟩
  simp [HeurLns.updateNeighborhoodStats, HeurLns.initNeighborhoodStatsRun,
    HeurLns.DEFAULT_BESTSOLWEIGHT]

/-- Claim C9: for a valid arm index, expThreeUpdate adds the gain to that
arm's cumulative gain and changes nothing else: the probability vector, the
draw count, the action count, the gain-array length and every other arm's
cumulative gain are untouched (the probability vector is never recomputed). -/
theorem expThreeUpdate_spec (exp3 : HeurLns.ExpThree) (gain : ℚ) (i : ℕ)
    (hi : i < exp3.cumulativegain.length) :
    (HeurLns.expThreeUpdate exp3 gain i).probabilities = exp3.probabilities
      ∧ (HeurLns.expThreeUpdate exp3 gain i).ndraws = exp3.ndraws
      ∧ (HeurLns.expThreeUpdate exp3 gain i).nactions = exp3.nactions
      ∧ (HeurLns.expThreeUpdate exp3 gain i).cumulativegain.length
          = exp3.cumulativegain.length
      ∧ (HeurLns.expThreeUpdate exp3 gain i).cumulativegain.getD i 0
          = exp3.cumulativegain.getD i 0 + gain
      ∧ ∀ j, j ≠ i →
          (HeurLns.expThreeUpdate exp3 gain i).cumulativegain.getD j 0
            = exp3.cumulativegain.getD j 0 := by
  refine ⟨rfl, rfl, rfl, by simp [HeurLns.expThreeUpdate], ?_, ?_⟩
  · simp only [HeurLns.expThreeUpdate]
    rw [List.getD_eq_getElem?_getD, List.getElem?_set_self hi]
    rw [List.getD_eq_getElem?_getD, List.getElem?_eq_getElem hi]
    simp
  · intro j hj
    simp only [HeurLns.expThreeUpdate]
    rw [List.getD_eq_getElem?_getD, List.getElem?_set_ne (fun h => hj h.symm)]
    rw [List.getD_eq_getElem?_getD]

/-- Witness for expThreeUpdate_spec at a concrete EXP3 state. -/
theorem expThreeUpdate_spec_witness :
    (1 : ℕ) < ([3, 4] : List ℚ).length
      ∧ (HeurLns.expThreeUpdate ⟨2, 5, [1/2, 1/2], [3, 4]⟩ 2 1).probabilities
          = [1/2, 1/2]
      ∧ (HeurLns.expThreeUpdate ⟨2, 5, [1/2, 1/2], [3, 4]⟩ 2 1).ndraws = 5 :=
  ⟨by decide,
    (expThreeUpdate_spec ⟨2, 5, [1/2, 1/2], [3, 4]⟩ 2 1 (by decide)).1,
    (expThreeUpdate_spec ⟨2, 5, [1/2, 1/2], [3, 4]⟩ 2 1 (by decide)).2.1⟩

/-- Claim C2: determineLimits computes the node budget as
floor(nodesquot * outer node count) + nodesoffset - usednodes - 100 * ncalls,
and the returned run flag is false exactly when the remaining time limit is
nonpositive, the remaining memory limit is at most twice the outer external
memory estimate, or the node budget is below minnodes; otherwise the flag is
returned as passed in. -/
theorem determineLimits_spec (st : HeurLns.OuterState) (nodesquot : ℚ)
    (nodesoffset usednodes minnodes : Int) (runagain : Bool)
    (hq : 0 ≤ nodesquot) (hn : 0 ≤ st.nnodes) :
    (HeurLns.determineLimits st nodesquot nodesoffset usednodes minnodes
          runagain).1.nodelimit
        = ⌊nodesquot * (st.nnodes : ℚ)⌋ + nodesoffset - usednodes
            - 100 * st.ncalls
      ∧ (HeurLns.determineLimits st nodesquot nodesoffset usednodes minnodes
          runagain).2
        = (if (HeurLns.determineLimits st nodesquot nodesoffset usednodes
                  minnodes runagain).1.timelimit ≤ 0
              ∨ (HeurLns.determineLimits st nodesquot nodesoffset usednodes
                  minnodes runagain).1.memorylimit
                  ≤ 2 * st.memExternEstim / 1048576
              ∨ (HeurLns.determineLimits st nodesquot nodesoffset usednodes
                  minnodes runagain).1.nodelimit < minnodes
           then false else runagain) := by
  have hq2 : 0 ≤ nodesquot * (st.nnodes : ℚ) :=
    mul_nonneg hq (by exact_mod_cast hn)
  constructor
  · simp only [HeurLns.determineLimits, HeurLns.ratTrunc, if_pos hq2]
  · simp only [HeurLns.determineLimits]
    split_ifs <;> tauto

/-- Witness for determineLimits_spec at a concrete outer state. -/
theorem determineLimits_spec_witness :
    (HeurLns.determineLimits ⟨60, 4096, 10, 1048576, 2097152, 7, 3⟩ (1 / 20)
        500 30 10 true).1.nodelimit
      = ⌊(1 / 20 : ℚ) * (((7 : Int)) : ℚ)⌋ + 500 - 30 - 100 * 3 :=
  (determineLimits_spec ⟨60, 4096, 10, 1048576, 2097152, 7, 3⟩ (1 / 20)
    500 30 10 true (by norm_num) (by decide)).1

/-- Claim C3: when the outer upper bound is finite, the installed objective
cutoff is min(U - eps, c), with c the minimprove-weighted combination chosen
by the finiteness of the lower bound and the sign of U; in particular for
U = 10, L = 2, minimprove = 1/10 and any tolerance eps in (0, 4/5] the
installed cutoff is 46/5 = 9.2. -/
theorem setupSubScip_cutoff (U L minimprove eps : ℚ)
    (hU : HeurLns.isInfinity U = false) :
    HeurLns.setupSubScipObjlimit U L minimprove eps
        = some (min (U - eps)
            (if ¬ HeurLns.isInfinity (-1 * L) then
              (1 - minimprove) * U + minimprove * L
             else if 0 ≤ U then (1 - minimprove) * U
             else (1 + minimprove) * U))
      ∧ (0 < eps → eps ≤ 4 / 5 →
          HeurLns.setupSubScipObjlimit 10 2 (1 / 10) eps = some (46 / 5)) := by
  have hfin10 : HeurLns.isInfinity (10 : ℚ) = false := by
    simp only [HeurLns.isInfinity, HeurLns.SCIPinfinity,
      decide_eq_false_iff_not]
    norm_num
  have hfin2 : HeurLns.isInfinity ((-1 : ℚ) * 2) = false := by
    simp only [HeurLns.isInfinity, HeurLns.SCIPinfinity,
      decide_eq_false_iff_not]
    norm_num
  constructor
  · simp only [HeurLns.setupSubScipObjlimit, hU, Bool.false_eq_true,
      if_false]
  · intro h1 h2
    simp only [HeurLns.setupSubScipObjlimit, hfin10, hfin2,
      Bool.false_eq_true, if_false, not_false_iff, if_true]
    have hc : ((1 : ℚ) - 1 / 10) * 10 + (1 / 10) * 2 = 46 / 5 := by norm_num
    rw [hc, min_eq_right (by linarith)]

/-- Witness for setupSubScip_cutoff at U = 10, L = 2, minimprove = 1/10 and
the SCIP default sum tolerance 1e-6. -/
theorem setupSubScip_cutoff_witness :
    HeurLns.isInfinity (10 : ℚ) = false
      ∧ HeurLns.setupSubScipObjlimit 10 2 (1 / 10) (1 / 1000000)
          = some (46 / 5) :=
  ⟨by simp only [HeurLns.isInfinity, HeurLns.SCIPinfinity,
      decide_eq_false_iff_not]; norm_num,
    (setupSubScip_cutoff 10 2 (1 / 10) (1 / 1000000)
        (by simp only [HeurLns.isInfinity, HeurLns.SCIPinfinity,
          decide_eq_false_iff_not]; norm_num)).2
      (by norm_num) (by norm_num)⟩

theorem bestUpTo_le (r : ℕ → ℚ) (n : ℕ) : HeurLns.bestUpTo r n ≤ n := by
  induction n with
  | zero => simp [HeurLns.bestUpTo]
  | succ n ih =>
      by_cases h : r (HeurLns.bestUpTo r n) < r (n + 1)
      · simp only [HeurLns.bestUpTo, if_pos h]
        exact Nat.le_refl _
      · simp only [HeurLns.bestUpTo, if_neg h]
        exact Nat.le_trans ih (Nat.le_succ n)

theorem bestUpTo_reward_le (r : ℕ → ℚ) (n : ℕ) :
    ∀ j, j ≤ n → r j ≤ r (HeurLns.bestUpTo r n) := by
  induction n with
  | zero =>
      intro j hj
      rw [Nat.le_zero.mp hj]
      simp [HeurLns.bestUpTo]
  | succ n ih =>
      intro j hj
      by_cases h : r (HeurLns.bestUpTo r n) < r (n + 1)
      · simp only [HeurLns.bestUpTo, if_pos h]
        rcases Nat.eq_or_lt_of_le hj with he | hl
        · rw [he]
        · exact le_of_lt (lt_of_le_of_lt (ih j (Nat.lt_succ_iff.mp hl)) h)
      · simp only [HeurLns.bestUpTo, if_neg h]
        rcases Nat.eq_or_lt_of_le hj with he | hl
        · rw [he]; exact not_lt.mp h
        · exact ih j (Nat.lt_succ_iff.mp hl)

theorem bestUpTo_reward_lt (r : ℕ → ℚ) (n : ℕ) :
    ∀ j, j < HeurLns.bestUpTo r n → r j < r (HeurLns.bestUpTo r n) := by
  induction n with
  | zero =>
      intro j hj
      simp [HeurLns.bestUpTo] at hj
  | succ n ih =>
      intro j hj
      by_cases h : r (HeurLns.bestUpTo r n) < r (n + 1)
      · simp only [HeurLns.bestUpTo, if_pos h] at hj ⊢
        exact lt_of_le_of_lt
          (bestUpTo_reward_le r n j (Nat.lt_succ_iff.mp hj)) h
      · simp only [HeurLns.bestUpTo, if_neg h] at hj ⊢
        exact ih j hj

/-- Claim C4: epsGreedySelect returns -1 exactly when there are no choices;
for u ≤ epsilon it returns the first-seen maximiser of the reward function
(every arm's reward is at most the returned arm's, and every earlier arm's
reward is strictly smaller, so ties go to the lowest index); for u > epsilon
it returns the random draw, an index in [0, nchoices). -/
theorem epsGreedySelect_spec (nchoices : ℕ) (r : ℕ → ℚ) (eps u : ℚ)
    (randdraw : ℕ) (hrand : nchoices ≠ 0 → randdraw < nchoices) :
    (HeurLns.epsGreedySelect nchoices r eps u randdraw = -1 ↔ nchoices = 0)
      ∧ (nchoices ≠ 0 → u ≤ eps →
          ∃ b : ℕ,
            HeurLns.epsGreedySelect nchoices r eps u randdraw = (b : Int)
              ∧ b < nchoices
              ∧ (∀ j, j < nchoices → r j ≤ r b)
              ∧ (∀ j, j < b → r j < r b))
      ∧ (nchoices ≠ 0 → eps < u →
          HeurLns.epsGreedySelect nchoices r eps u randdraw = (randdraw : Int)
            ∧ (0 : Int) ≤ (randdraw : Int)
            ∧ (randdraw : Int) < (nchoices : Int)) := by
  by_cases hn : nchoices = 0
  · subst hn
    refine ⟨by simp [HeurLns.epsGreedySelect], ?_, ?_⟩
    · intro h; exact absurd rfl h
    · intro h; exact absurd rfl h
  · refine ⟨?_, ?_, ?_⟩
    · constructor
      · intro h
        exfalso
        unfold HeurLns.epsGreedySelect at h
        rw [if_neg hn] at h
        by_cases hu : u ≤ eps
        · rw [if_pos hu] at h; omega
        · rw [if_neg hu] at h; omega
      · intro h; exact absurd h hn
    · intro _ hu
      refine ⟨HeurLns.bestUpTo r (nchoices - 1), ?_, ?_, ?_, ?_⟩
      · unfold HeurLns.epsGreedySelect
        rw [if_neg hn, if_pos hu]
      · have := bestUpTo_le r (nchoices - 1)
        omega
      · intro j hj
        exact bestUpTo_reward_le r (nchoices - 1) j (by omega)
      · intro j hj
        exact bestUpTo_reward_lt r (nchoices - 1) j hj
    · intro _ hu
      have hur : ¬ u ≤ eps := not_le.mpr hu
      refine ⟨?_, by omega, by exact_mod_cast hrand hn⟩
      unfold HeurLns.epsGreedySelect
      rw [if_neg hn, if_neg hur]

/-- Witness for epsGreedySelect_spec with three arms. -/
theorem epsGreedySelect_spec_witness :
    HeurLns.epsGreedySelect 3 (fun j => (j : ℚ)) (1 / 2) (3 / 4) 2 = -1
      ↔ (3 : ℕ) = 0 :=
  (epsGreedySelect_spec 3 (fun j => (j : ℚ)) (1 / 2) (3 / 4) 2
    (fun _ => by omega)).1

/-- Claim C7, evaluated at a failing input.  The claim states that the
mutation neighborhood's fixing computation leaves the outer problem's
variable array unchanged.  The code disagrees: the partial shuffle swaps
entries of the array returned by SCIPgetVarsData itself (the copy varscpy it
makes is never used), so with variables [10, 20, 30, 40], a target of two
fixings and random draws i+1 the outer array comes back as [20, 30, 10, 40]. -/
theorem varFixingsMutation_perturbs_outer :
    (HeurLns.varFixingsMutation [10, 20, 30, 40] 4 0 4 true (fun _ => 1)
        (1 / 4) (fun i => i + 1)).1 = [20, 30, 10, 40]
      ∧ ¬ (HeurLns.varFixingsMutation [10, 20, 30, 40] 4 0 4 true (fun _ => 1)
        (1 / 4) (fun i => i + 1)).1 = [10, 20, 30, 40] := by
  have hnt : HeurLns.ratTrunc ((1 / 4 : ℚ) * ((4 : ℕ) : ℚ)) = 1 := by
    rw [show (1 / 4 : ℚ) * ((4 : ℕ) : ℚ) = 1 by norm_num]
    unfold HeurLns.ratTrunc
    rw [if_pos (by norm_num : (0 : ℚ) ≤ 1)]
    exact Int.floor_one
  have hmain : (HeurLns.varFixingsMutation [10, 20, 30, 40] 4 0 4 true
      (fun _ => 1) (1 / 4) (fun i => i + 1)).1 = [20, 30, 10, 40] := by
    simp only [HeurLns.varFixingsMutation, hnt]
    norm_num
    rfl
  rw [hmain]
  exact ⟨rfl, by decide⟩

/-- Counterexample to claim C8: with the budget check passing, a succeeding
fixing callback, and a solution accepted into the outer solve during the run,
heurExecLns still stores DIDNOTFIND, not FOUNDSOL. -/
theorem heurExecLns_accepted_not_foundsol :
    HeurLns.heurExecLns ⟨100, 1000, 0, 0, 0, 0, 0⟩ (1 / 20) 500 0 10
        (some ⟨4, true⟩) (1 / 4) 4 true = HeurLns.HeurResult.didnotfind
      ∧ HeurLns.HeurResult.didnotfind ≠ HeurLns.HeurResult.foundsol := by
  have hinfT : HeurLns.isInfinity (100 : ℚ) = false := by
    simp only [HeurLns.isInfinity, HeurLns.SCIPinfinity,
      decide_eq_false_iff_not]
    norm_num
  have hinfM : HeurLns.isInfinity (1000 : ℚ) = false := by
    simp only [HeurLns.isInfinity, HeurLns.SCIPinfinity,
      decide_eq_false_iff_not]
    norm_num
  have hrun : (HeurLns.determineLimits ⟨100, 1000, 0, 0, 0, 0, 0⟩ (1 / 20)
      500 0 10 true).2 = true := by
    simp only [HeurLns.determineLimits, hinfT, hinfM, Bool.false_eq_true,
      if_false]
    norm_num [HeurLns.ratTrunc]
  have hfix : (HeurLns.neighborhoodFixVariables (some ⟨4, true⟩) (1 / 4)
      4).success = true := by
    simp only [HeurLns.neighborhoodFixVariables, Option.getD_some]
    split <;> rfl
  refine ⟨?_, by decide⟩
  simp only [HeurLns.heurExecLns]
  rw [hrun, hfix]
  simp

/-- Claim C8 as amended: one invocation returns DELAYED exactly when the
budget check fails, DIDNOTRUN exactly when the budget check passes but the
selected neighborhood's fixing computation declines, and DIDNOTFIND exactly
when a sub-solve is launched — independently of whether any solution was
accepted into the outer solve during the run; FOUNDSOL is never returned. -/
theorem heurExecLns_result_cases (st : HeurLns.OuterState) (nodesquot : ℚ)
    (nodesoffset usednodes minnodes : Int)
    (varfixings : Option HeurLns.VarFixingsResult) (targetfixingrate : ℚ)
    (nvars : ℕ) (accepted : Bool) :
    (HeurLns.heurExecLns st nodesquot nodesoffset usednodes minnodes
          varfixings targetfixingrate nvars accepted = HeurLns.HeurResult.delayed
        ↔ (HeurLns.determineLimits st nodesquot nodesoffset usednodes minnodes
            true).2 = false)
      ∧ (HeurLns.heurExecLns st nodesquot nodesoffset usednodes minnodes
          varfixings targetfixingrate nvars accepted = HeurLns.HeurResult.didnotrun
        ↔ ((HeurLns.determineLimits st nodesquot nodesoffset usednodes minnodes
              true).2 = true
            ∧ (HeurLns.neighborhoodFixVariables varfixings targetfixingrate
              nvars).success = false))
      ∧ (HeurLns.heurExecLns st nodesquot nodesoffset usednodes minnodes
          varfixings targetfixingrate nvars accepted = HeurLns.HeurResult.didnotfind
        ↔ ((HeurLns.determineLimits st nodesquot nodesoffset usednodes minnodes
              true).2 = true
            ∧ (HeurLns.neighborhoodFixVariables varfixings targetfixingrate
              nvars).success = true))
      ∧ HeurLns.heurExecLns st nodesquot nodesoffset usednodes minnodes
          varfixings targetfixingrate nvars accepted
          ≠ HeurLns.HeurResult.foundsol := by
  rcases hrun : (HeurLns.determineLimits st nodesquot nodesoffset usednodes
      minnodes true).2 <;>
    rcases hfix : (HeurLns.neighborhoodFixVariables varfixings targetfixingrate
      nvars).success <;>
      simp [HeurLns.heurExecLns, hrun, hfix]

end HeurLns
